import Mathlib

/-!
A shallow embedding of the ISMP message-handling core (polytope-labs/ismp-rs).

The repository snapshot contains two generations of the crate:
* `src/ismp/...` — the refined crate: `handlers/consensus.rs` (`update_client`,
  `create_client`, `freeze_client`) and `util.rs` (`hash_request`).  Its
  `host.rs`, `handlers/mod.rs` and the request/response/timeout handlers are
  not in the snapshot; where a claim needs them they are modelled from the
  spec and marked as such.
* `src/src/...` — the earlier crate: `handlers.rs` (`validate_state_machine`,
  `verify_delay_passed`, `handle_incoming_message`), `handlers/request.rs`,
  `handlers/timeout.rs`, `consensus_client.rs` (`is_expired`), together with
  the mock host of `ismp-testsuite/src/mocks.rs` which supplies the storage
  semantics (`is_frozen`, `request_commitment`, ...).

Stateful host access is embedded by explicit state passing: a handler takes a
host state and returns `Option (Except Error (result × state))`, where `none`
models a Rust panic (the unguarded `Duration` subtraction) and `Except.error`
models the handler's `Err` return.
-/

/-- Byte strings are lists of naturals; each byte is kept below 256 where it
matters (`be64`). -/
abbrev Bytes := List Nat

/-- A 32-byte hash is abstracted as a natural number. -/
abbrev H256 := Nat

/-- The panic/Result monad of the embedding: `none` is a Rust panic,
`some (.error e)` an `Err(e)` return, `some (.ok a)` an `Ok(a)` return. -/
abbrev PRes (ε α : Type) := Option (Except ε α)

/-- Return `Ok` inside the panic layer. -/
def pok {ε α : Type} (a : α) : PRes ε α := some (.ok a)

/-- Return `Err` inside the panic layer. -/
def perr {ε α : Type} (e : ε) : PRes ε α := some (.error e)

/-- Bind for the panic/Result monad: panics and errors short-circuit. -/
def pbind {ε α β : Type} (x : PRes ε α) (f : α → PRes ε β) : PRes ε β :=
  match x with
  | none => none
  | some (.error e) => some (.error e)
  | some (.ok a) => f a

/-- Rust's `core::time::Duration` subtraction `a - b`: it panics (`none`)
when `b > a`, otherwise returns the difference.  (`impl Sub for Duration`
calls `checked_sub(...).expect("overflow when subtracting durations")`.) -/
def durSub (a b : Nat) : Option Nat :=
  if b ≤ a then some (a - b) else none

/-- The ISMP error taxonomy (src `error.rs` of both crates together with the
spec's §7 list; only the kinds the embedded handlers can produce appear). -/
inductive Error where
  | ConsensusStateIdNotRecognized (state_id : Nat)
  | ConsensusStateNotFound (id : Nat)
  | UnknownConsensusClient (id : Nat)
  | FrozenConsensusClient (id : Nat)
  | ChallengePeriodNotElapsed (consensus_id now update_time : Nat)
  | UnbondingPeriodElapsed (consensus_id : Nat)
  | DelayNotElapsed (current_time update_time : Nat)
  | FrozenStateMachineA (state_id height : Nat)
  | FrozenStateMachineB (state_id consensus_client height : Nat)
  | RequestCommitmentNotFound (nonce source dest : Nat)
  | RequestTimeoutVerificationFailed (nonce source dest : Nat)
  | MembershipProofVerificationFailed (msg : String)
  | StateProofVerificationFailed (msg : String)
  | CannotHandleMessage
  | CannotHandleConsensusMessage
  | DispatchFailed (msg : String) (nonce source dest : Nat)
  | ImplementationSpecific (msg : String)
deriving DecidableEq, Repr

namespace IsmpA

/-!
Era A: the refined crate `src/ismp`.  State machine ids pair a chain id with
the owning consensus **state** id (`consensus.rs` of the refined crate is not
in the snapshot; the shape is taken from its uses in
`src/ismp/src/handlers/consensus.rs`).
-/

/-- `StateMachineId { state_id, consensus_state_id }` of the refined crate;
chain ids and consensus state ids are abstracted as naturals. -/
structure StateMachineId where
  state_id : Nat
  consensus_state_id : Nat
deriving DecidableEq, Repr

/-- `StateMachineHeight { id, height }`. -/
structure StateMachineHeight where
  id : StateMachineId
  height : Nat
deriving DecidableEq, Repr

/-- `StateCommitment { timestamp, ismp_root, state_root }` as constructed in
`ismp-testsuite/src/tests.rs`; roots are abstracted as naturals. -/
structure StateCommitment where
  timestamp : Nat
  ismp_root : Option Nat
  state_root : Nat
deriving DecidableEq, Repr

/-- The `StateCommitmentHeight`-shaped pairs produced by `verify_consensus`
(`commitment_height.height` / `commitment_height.commitment` in
`update_client`). -/
structure CommitmentHeight where
  height : Nat
  commitment : StateCommitment
deriving DecidableEq, Repr

/-- `ConsensusMessage { consensus_state_id, consensus_proof }`. -/
structure ConsensusMessage where
  consensus_state_id : Nat
  consensus_proof : Bytes
deriving DecidableEq, Repr

/-- `FraudProofMessage { consensus_state_id, proof_1, proof_2 }`. -/
structure FraudProofMessage where
  consensus_state_id : Nat
  proof_1 : Bytes
  proof_2 : Bytes
deriving DecidableEq, Repr

/-- The consensus-client capability as `update_client` and `freeze_client`
use it.  The host argument of the Rust trait methods is dropped: the verifier
is an opaque capability whose result is data to the core. -/
structure ConsensusClient where
  verifyConsensus : Nat → Bytes → Bytes → Except Error (Bytes × List (Nat × CommitmentHeight))
  verifyFraudProof : Bytes → Bytes → Bytes → Except Error Unit

/-- The host storage of the refined crate, one field per abstract key space
(spec §6) plus the clock and the per-client configuration.  `host.rs` of the
refined crate is not in the snapshot; lookup failures follow the in-snapshot
mock host (`ismp-testsuite/src/mocks.rs`), which returns
`ImplementationSpecific` errors for missing keys. -/
structure Host where
  consensusStateClient : Nat → Option Nat
  consensusClients : Nat → Option ConsensusClient
  consensusStates : Nat → Option Bytes
  consensusUpdateTime : Nat → Option Nat
  frozenClients : Nat → Bool
  frozenMachines : StateMachineHeight → Bool
  latestHeight : StateMachineId → Option Nat
  commitments : StateMachineHeight → Option StateCommitment
  challengePeriod : Nat → Nat
  unbondingPeriod : Nat → Nat
  now : Nat

/-- `host.store_consensus_state(state_id, bytes)`. -/
def storeConsensusState (h : Host) (id : Nat) (bytes : Bytes) : Host :=
  { h with consensusStates := fun i => if i = id then some bytes else h.consensusStates i }

/-- `host.store_consensus_update_time(state_id, timestamp)`. -/
def storeConsensusUpdateTime (h : Host) (id : Nat) (t : Nat) : Host :=
  { h with consensusUpdateTime := fun i => if i = id then some t else h.consensusUpdateTime i }

/-- `host.store_state_machine_commitment(height, commitment)`. -/
def storeStateMachineCommitment (h : Host) (sh : StateMachineHeight) (c : StateCommitment) : Host :=
  { h with commitments := fun x => if x = sh then some c else h.commitments x }

/-- `host.store_latest_commitment_height(height)`: keyed by the height's id,
stores the height number (mock host lines 173-176). -/
def storeLatestCommitmentHeight (h : Host) (sh : StateMachineHeight) : Host :=
  { h with latestHeight := fun i => if i = sh.id then some sh.height else h.latestHeight i }

/-- `host.freeze_consensus_client(state_id)`. -/
def freezeConsensusClient (h : Host) (id : Nat) : Host :=
  { h with frozenClients := fun i => if i = id then true else h.frozenClients i }

/-- Modelled from the spec: `host.is_expired(client_id, state_id)` of the
refined host trait is not under src; §4.1 says it "returns an error if
`now − last_update > unbonding_period`". -/
def Host.is_expired (h : Host) (client_id state_id : Nat) : Except Error Unit :=
  match h.consensusUpdateTime state_id with
  | none => .error (.ImplementationSpecific "Consensus update time not found")
  | some last =>
    if h.unbondingPeriod client_id < h.now - last then
      .error (.UnbondingPeriodElapsed client_id)
    else .ok ()

/-- `MessageResult::ConsensusMessage` payload of `update_client`: the
`ConsensusUpdateResult` with its set of `(previous, new)` height pairs
(modelled as a list in iteration order). -/
structure ConsensusUpdateResult where
  consensus_client_id : Nat
  consensus_state_id : Nat
  state_updates : List (StateMachineHeight × StateMachineHeight)

/-- Success record `(dest, source, nonce)` shared by the request, response and
timeout pipelines. -/
structure RRResult where
  dest_chain : Nat
  source_chain : Nat
  nonce : Nat
deriving DecidableEq, Repr

/-- `MessageResult` of the refined crate. -/
inductive MessageResult where
  | ConsensusMessage (r : ConsensusUpdateResult)
  | FrozenClient (state_id : Nat)
  | Request (r : RRResult)
  | Response (r : RRResult)
  | Timeout (r : RRResult)

/-- The intermediate-state loop of `update_client`
(src/ismp/src/handlers/consensus.rs lines 66-94): frozen heights are skipped,
heights below the tracked latest are skipped, duplicate commitments are
skipped, everything else is stored and becomes the new latest height. -/
def processIntermediates (host : Host) (state_id : Nat) :
    List (Nat × CommitmentHeight) →
    Except Error (Host × List (StateMachineHeight × StateMachineHeight))
  | [] => .ok (host, [])
  | (sid, ch) :: rest =>
    let id : StateMachineId := ⟨sid, state_id⟩
    let sh : StateMachineHeight := ⟨id, ch.height⟩
    if host.frozenMachines sh then
      processIntermediates host state_id rest
    else
      match host.latestHeight id with
      | none => .error (.ImplementationSpecific "latest height not found")
      | some previous_latest_height =>
        if ch.height < previous_latest_height then
          processIntermediates host state_id rest
        else if (host.commitments sh).isSome then
          processIntermediates host state_id rest
        else
          let host' := storeStateMachineCommitment host sh ch.commitment
          let host' := storeLatestCommitmentHeight host' sh
          match processIntermediates host' state_id rest with
          | .error e => .error e
          | .ok (hostF, updates) =>
            .ok (hostF, (⟨id, previous_latest_height⟩, sh) :: updates)

/-- `update_client` (src/ismp/src/handlers/consensus.rs): the consensus
update handler of the refined crate.  `none` models the panic of the
unguarded `now - update_time` Duration subtraction. -/
def update_client (host : Host) (msg : ConsensusMessage) :
    PRes Error (MessageResult × Host) :=
  match host.consensusStateClient msg.consensus_state_id with
  | none => perr (.ConsensusStateIdNotRecognized msg.consensus_state_id)
  | some consensus_client_id =>
    match host.consensusClients consensus_client_id with
    | none => perr (.UnknownConsensusClient consensus_client_id)
    | some consensus_client =>
      match host.consensusStates msg.consensus_state_id with
      | none => perr (.ConsensusStateNotFound msg.consensus_state_id)
      | some trusted_state =>
        match host.consensusUpdateTime msg.consensus_state_id with
        | none => perr (.ImplementationSpecific "Consensus update time not found")
        | some update_time =>
          let delay := host.challengePeriod consensus_client_id
          let now := host.now
          if host.frozenClients msg.consensus_state_id then
            perr (.FrozenConsensusClient msg.consensus_state_id)
          else
            match durSub now update_time with
            | none => none
            | some elapsed =>
              if elapsed ≤ delay then
                perr (.ChallengePeriodNotElapsed consensus_client_id now update_time)
              else
                match host.is_expired consensus_client_id msg.consensus_state_id with
                | .error e => perr e
                | .ok _ =>
                  match consensus_client.verifyConsensus msg.consensus_state_id
                      trusted_state msg.consensus_proof with
                  | .error e => perr e
                  | .ok (new_state, intermediate_states) =>
                    let host' := storeConsensusState host msg.consensus_state_id new_state
                    let host' := storeConsensusUpdateTime host' msg.consensus_state_id host'.now
                    match processIntermediates host' msg.consensus_state_id intermediate_states with
                    | .error e => perr e
                    | .ok (hostF, state_updates) =>
                      pok (.ConsensusMessage
                        ⟨consensus_client_id, msg.consensus_state_id, state_updates⟩, hostF)

/-- `freeze_client` (src/ismp/src/handlers/consensus.rs): verifies a fraud
proof then freezes the consensus client. -/
def freeze_client (host : Host) (msg : FraudProofMessage) :
    PRes Error (MessageResult × Host) :=
  match host.consensusStateClient msg.consensus_state_id with
  | none => perr (.ImplementationSpecific "Unknown Consensus State Id")
  | some consensus_client_id =>
    match host.consensusClients consensus_client_id with
    | none => perr (.UnknownConsensusClient consensus_client_id)
    | some consensus_client =>
      match host.consensusStates msg.consensus_state_id with
      | none => perr (.ConsensusStateNotFound msg.consensus_state_id)
      | some trusted_state =>
        match consensus_client.verifyFraudProof trusted_state msg.proof_1 msg.proof_2 with
        | .error e => perr e
        | .ok _ =>
          let host' := freezeConsensusClient host msg.consensus_state_id
          let host' := storeConsensusUpdateTime host' msg.consensus_state_id host'.now
          pok (.FrozenClient msg.consensus_state_id, host')

end IsmpA

namespace IsmpB

/-!
Era B: the earlier crate `src/src` together with the mock host of
`ismp-testsuite/src/mocks.rs`, which is the only host implementation in the
snapshot and supplies the storage lookup semantics.
-/

/-- `StateMachineId { state_id, consensus_client }`
(src/src/consensus_client.rs). -/
structure StateMachineId where
  state_id : Nat
  consensus_client : Nat
deriving DecidableEq, Repr

/-- `StateMachineHeight { id, height }` (src/src/consensus_client.rs). -/
structure StateMachineHeight where
  id : StateMachineId
  height : Nat
deriving DecidableEq, Repr

/-- `StateCommitment { timestamp, commitment_root }`
(src/src/consensus_client.rs). -/
structure StateCommitment where
  timestamp : Nat
  commitment_root : Bytes
deriving DecidableEq, Repr

/-- `Proof { height, proof }` carried by request/response/timeout messages. -/
structure Proof where
  height : StateMachineHeight
  proof : Bytes
deriving DecidableEq, Repr

/-- The request as the era-B handlers read it: `source_chain`, `dest_chain`
and `nonce` (`ChainID` abstracted as a natural); the remaining fields only
feed the canonical hash, which the host computes (`hashReq` below). -/
structure Request where
  source_chain : Nat
  dest_chain : Nat
  nonce : Nat
  timeout_timestamp : Nat
deriving DecidableEq, Repr

/-- A response bound to its originating request. -/
structure Response where
  request : Request
  response : Bytes
deriving DecidableEq, Repr

/-- `RequestResponse`, the item passed to membership verification. -/
inductive RequestResponse where
  | Request (r : Request)
  | Response (r : Response)

/-- The derived lexicographic `Ord` of the Rust `StateMachineHeight`
(`id` first — itself `state_id` then `consensus_client` — then `height`):
`smhGe a b` is `a >= b`. -/
def smhGe (a b : StateMachineHeight) : Bool :=
  if a.id.state_id ≠ b.id.state_id then b.id.state_id < a.id.state_id
  else if a.id.consensus_client ≠ b.id.consensus_client then
    b.id.consensus_client < a.id.consensus_client
  else b.height ≤ a.height

/-- The consensus-client capability of the era-B call sites: the old trait's
`is_frozen(host, id)` and `verify_membership(host, item, root, proof)`
(src/src/consensus_client.rs) plus the `verify_state_proof(host, key, state,
proof)` call of src/src/handlers/timeout.rs.  The host argument is dropped:
the in-snapshot implementation (`MockClient`) ignores it. -/
structure ConsensusClient where
  consensusId : Nat
  unbondingPeriodC : Nat
  isFrozenC : Nat → Except Error Bool
  verifyMembership : RequestResponse → Bytes → Proof → Except Error Unit
  verifyStateProof : H256 → StateCommitment → Proof → Except Error (List (Option Bytes))

/-- The router capability (src/src handlers only inspect success/failure of
dispatch; the in-snapshot `MockRouter.dispatch_timeout` performs no host
write). -/
structure Router where
  dispatch : Request → Except Error Unit
  dispatchTimeout : Request → Except Error Unit
  writeResponse : Response → Except Error Unit

/-- The era-B host: storage per `ismp-testsuite/src/mocks.rs` (`requests` is
the outbound request commitment set), the clock, the per-client
`delay_period` configuration read by `verify_delay_passed`, the canonical
request hash `hash_request::<Self>` used by `request_commitment` /
`get_request_commitment`, the client registry and the router. -/
structure Host where
  requests : List H256
  consensusStates : Nat → Option Bytes
  stateCommitments : StateMachineHeight → Option StateCommitment
  consensusUpdateTime : Nat → Option Nat
  frozenStateMachines : StateMachineId → Option StateMachineHeight
  latestStateHeight : StateMachineId → Option Nat
  consensusClients : Nat → Option ConsensusClient
  delayPeriod : Nat → Nat
  hashReq : Request → H256
  routerB : Router
  now : Nat

/-- `Host::is_frozen` (ismp-testsuite/src/mocks.rs lines 125-133): frozen iff
a frozen height is stored for the id and that stored height is `>=` the
queried height under the derived lexicographic order. -/
def Host.is_frozen (h : Host) (height : StateMachineHeight) : Except Error Bool :=
  .ok (match h.frozenStateMachines height.id with
       | some frozen_height => smhGe frozen_height height
       | none => false)

/-- `Host::request_commitment` (ismp-testsuite/src/mocks.rs): the hash of the
request if it is in the outbound set, an error otherwise. -/
def Host.request_commitment (h : Host) (req : Request) : Except Error H256 :=
  let hash := h.hashReq req
  if hash ∈ h.requests then .ok hash
  else .error (.ImplementationSpecific "Request commitment not found")

/-- `host.get_request_commitment(&req)`: the canonical hash of the request
(the pure counterpart of `request_commitment`; the old `host.rs` is not in
the snapshot, the mock host computes `hash_request::<Self>(req)`). -/
def Host.get_request_commitment (h : Host) (req : Request) : H256 :=
  h.hashReq req

/-- `Host::delete_request_commitment` (ismp-testsuite/src/mocks.rs lines
177-181): removes the request's hash from the outbound set. -/
def Host.delete_request_commitment (h : Host) (req : Request) : Host :=
  { h with requests := h.requests.filter (fun x => x ≠ h.hashReq req) }

/-- `Host::freeze_state_machine` (ismp-testsuite/src/mocks.rs): keyed by the
height's id, stores the full height. -/
def Host.freeze_state_machine (h : Host) (height : StateMachineHeight) : Host :=
  { h with frozenStateMachines :=
      fun i => if i = height.id then some height else h.frozenStateMachines i }

/-- `ConsensusClient::is_expired` (src/src/consensus_client.rs lines 81-86):
`host_timestamp.saturating_sub(last_update) > unbonding_period`.  Nat
subtraction is exactly the saturating subtraction, so this check is total. -/
def ConsensusClient.is_expired (c : ConsensusClient) (host : Host) : Except Error Bool :=
  match host.consensusUpdateTime c.consensusId with
  | none => .error (.ImplementationSpecific "Consensus update time not found")
  | some last_update =>
    .ok (decide (c.unbondingPeriodC < host.now - last_update))

/-- `verify_delay_passed` (src/src/handlers.rs lines 51-60):
`current_timestamp - update_time > delay_period` with the unguarded
`Duration` subtraction (panic on underflow). -/
def verify_delay_passed (host : Host) (proof_height : StateMachineHeight) :
    PRes Error Bool :=
  match host.consensusUpdateTime proof_height.id.consensus_client with
  | none => perr (.ImplementationSpecific "Consensus update time not found")
  | some update_time =>
    let delay_period := host.delayPeriod proof_height.id.consensus_client
    match durSub host.now update_time with
    | none => none
    | some elapsed => pok (decide (delay_period < elapsed))

/-- `validate_state_machine` (src/src/handlers.rs lines 66-91): consensus
client not frozen, state machine not frozen at the proof height, delay
elapsed; returns the resolved consensus client. -/
def validate_state_machine (host : Host) (proof : Proof) :
    PRes Error ConsensusClient :=
  let consensus_client_id := proof.height.id.consensus_client
  match host.consensusClients consensus_client_id with
  | none => perr (.UnknownConsensusClient consensus_client_id)
  | some consensus_client =>
    match consensus_client.isFrozenC consensus_client_id with
    | .error e => perr e
    | .ok frozen =>
      if frozen then perr (.FrozenConsensusClient consensus_client_id)
      else
        match host.is_frozen proof.height with
        | .error e => perr e
        | .ok machine_frozen =>
          if machine_frozen then
            perr (.FrozenStateMachineB proof.height.id.state_id
              proof.height.id.consensus_client proof.height.height)
          else
            pbind (verify_delay_passed host proof.height) fun passed =>
              if passed then pok consensus_client
              else
                match host.consensusUpdateTime proof.height.id.consensus_client with
                | none => perr (.ImplementationSpecific "Consensus update time not found")
                | some update_time => perr (.DelayNotElapsed host.now update_time)

/-- `RequestMessage { request, proof }` as read by
src/src/handlers/request.rs. -/
structure RequestMessage where
  request : Request
  proof : Proof

/-- `ResponseMessage` for the spec-modelled response handler. -/
structure ResponseMessage where
  response : Response
  proof : Proof

/-- `TimeoutMessage { request, timeout_proof }` as read by
src/src/handlers/timeout.rs. -/
structure TimeoutMessage where
  request : Request
  timeout_proof : Proof

/-- Per-message success record `(dest, source, nonce)`. -/
structure RRResult where
  dest_chain : Nat
  source_chain : Nat
  nonce : Nat
deriving DecidableEq, Repr

/-- `MessageResult` covering the era-B pipelines. -/
inductive MessageResult where
  | Request (r : RRResult)
  | Response (r : RRResult)
  | Timeout (r : RRResult)
deriving DecidableEq, Repr

/-- `handle_request_message` (src/src/handlers/request.rs): preamble, read the
commitment at the proof height, verify membership, dispatch to the router. -/
def handle_request_message (host : Host) (msg : RequestMessage) :
    PRes Error (MessageResult × Host) :=
  pbind (validate_state_machine host msg.proof) fun consensus_client =>
  match host.stateCommitments msg.proof.height with
  | none => perr (.ImplementationSpecific "state commitment not found")
  | some state =>
    match consensus_client.verifyMembership (.Request msg.request)
        state.commitment_root msg.proof with
    | .error e => perr e
    | .ok _ =>
      let result : RRResult :=
        ⟨msg.request.dest_chain, msg.request.source_chain, msg.request.nonce⟩
      match host.routerB.dispatch msg.request with
      | .error e => perr e
      | .ok _ => pok (.Request result, host)

/-- `handle` (src/src/handlers/timeout.rs): preamble, outbound commitment
check, `now > state.timestamp` gate, state proof, `dispatch_timeout`.  The
handler issues no host write, so the returned state is the input state. -/
def timeout_handle (host : Host) (msg : TimeoutMessage) :
    PRes Error (MessageResult × Host) :=
  pbind (validate_state_machine host msg.timeout_proof) fun consensus_client =>
  match host.request_commitment msg.request with
  | .error e => perr e
  | .ok commitment =>
    if commitment ≠ host.get_request_commitment msg.request then
      perr (.RequestCommitmentNotFound msg.request.nonce msg.request.source_chain
        msg.request.dest_chain)
    else
      match host.stateCommitments msg.timeout_proof.height with
      | none => perr (.ImplementationSpecific "state commitment not found")
      | some state =>
        if host.now ≤ state.timestamp then
          perr (.RequestTimeoutVerificationFailed msg.request.nonce
            msg.request.source_chain msg.request.dest_chain)
        else
          let key := host.get_request_commitment msg.request
          match consensus_client.verifyStateProof key state msg.timeout_proof with
          | .error e => perr e
          | .ok _ =>
            match host.routerB.dispatchTimeout msg.request with
            | .error e => perr e
            | .ok _ =>
              let result : RRResult :=
                ⟨msg.request.source_chain, msg.request.dest_chain, msg.request.nonce⟩
              pok (.Timeout result, host)

/-- Modelled from the spec: `src/src/handlers/response.rs` is declared in
src/src/handlers.rs (`mod response;`) but missing from the snapshot.  Per
§4.5, a response runs the preamble, verifies membership, requires the
outbound commitment of the originating request (else
`RequestCommitmentNotFound`), dispatches through the router and deletes the
commitment. -/
def handle_response_message (host : Host) (msg : ResponseMessage) :
    PRes Error (MessageResult × Host) :=
  pbind (validate_state_machine host msg.proof) fun consensus_client =>
  match host.stateCommitments msg.proof.height with
  | none => perr (.ImplementationSpecific "state commitment not found")
  | some state =>
    match consensus_client.verifyMembership (.Response msg.response)
        state.commitment_root msg.proof with
    | .error e => perr e
    | .ok _ =>
      match host.request_commitment msg.response.request with
      | .error _ =>
        perr (.RequestCommitmentNotFound msg.response.request.nonce
          msg.response.request.source_chain msg.response.request.dest_chain)
      | .ok _ =>
        match host.routerB.writeResponse msg.response with
        | .error e => perr e
        | .ok _ =>
          let host' := host.delete_request_commitment msg.response.request
          let result : RRResult := ⟨msg.response.request.dest_chain,
            msg.response.request.source_chain, msg.response.request.nonce⟩
          pok (.Response result, host')

end IsmpB

namespace IsmpA

/-- One big-endian byte of a `u64`: byte `i` counted from the most
significant. -/
def beByte (n i : Nat) : Nat := n / 2 ^ (8 * (7 - i)) % 256

/-- `u64::to_be_bytes`: the eight big-endian bytes of a 64-bit value. -/
def be64 (n : Nat) : Bytes :=
  [beByte n 0, beByte n 1, beByte n 2, beByte n 3,
   beByte n 4, beByte n 5, beByte n 6, beByte n 7]

/-- `Post` of src/ismp/src/router.rs; chains are abstract identifiers whose
canonical text a `smText` parameter supplies (the `Display` impl lives in the
refined crate's `host.rs`, not in the snapshot); `from` and `to` are spelt
`from_` and `to_` because both are reserved in Lean. -/
structure Post where
  source_chain : Nat
  dest_chain : Nat
  nonce : Nat
  from_ : Bytes
  to_ : Bytes
  timeout_timestamp : Nat
  data : Bytes
deriving DecidableEq, Repr

/-- `Get` of src/ismp/src/router.rs (the fields `hash_request` reads; the
storage-kind field is not read there). -/
structure Get where
  source_chain : Nat
  dest_chain : Nat
  nonce : Nat
  from_ : Bytes
  keys : List Bytes
  height : StateMachineHeight
  timeout_timestamp : Nat

/-- `Request` of src/ismp/src/router.rs. -/
inductive Request where
  | Post (p : Post)
  | Get (g : Get)

/-- `hash_request` (src/ismp/src/util.rs lines 12-49), mirroring the
`extend_from_slice` sequence on `buf`.  `keccak` is the host's hash
primitive, `smText` the chain identifier's canonical UTF-8 text
(`to_string`), `encodeKeys` the SCALE encoding of the key list — all three
are capabilities outside the core. -/
def hash_request (keccak : Bytes → H256) (smText : Nat → Bytes)
    (encodeKeys : List Bytes → Bytes) (req : Request) : H256 :=
  match req with
  | .Post post =>
    let buf : Bytes := []
    let source_chain := smText post.source_chain
    let dest_chain := smText post.dest_chain
    let nonce := be64 post.nonce
    let timestamp := be64 post.timeout_timestamp
    let buf := buf ++ source_chain
    let buf := buf ++ dest_chain
    let buf := buf ++ nonce
    let buf := buf ++ timestamp
    let buf := buf ++ post.from_
    let buf := buf ++ post.to_
    let buf := buf ++ post.data
    keccak buf
  | .Get get =>
    let buf : Bytes := []
    let source_chain := smText get.source_chain
    let dest_chain := smText get.dest_chain
    let nonce := be64 get.nonce
    let height := be64 get.height.height
    let timestamp := be64 get.timeout_timestamp
    let buf := buf ++ source_chain
    let buf := buf ++ dest_chain
    let buf := buf ++ nonce
    let buf := buf ++ height
    let buf := buf ++ timestamp
    let buf := buf ++ get.from_
    let buf := buf ++ encodeKeys get.keys
    keccak buf

/-- The spec's §4.6 `Post` hash formula, written as one concatenation:
`keccak256( utf8(source_chain) ‖ utf8(dest_chain) ‖ be64(nonce) ‖
be64(timeout_timestamp) ‖ from ‖ to ‖ data )`. -/
def hashPostSpec (keccak : Bytes → H256) (smText : Nat → Bytes) (post : Post) : H256 :=
  keccak (smText post.source_chain ++ smText post.dest_chain ++ be64 post.nonce ++
    be64 post.timeout_timestamp ++ post.from_ ++ post.to_ ++ post.data)

/-- `RequestMessage { requests, proof }` of the refined crate (spec §6; the
refined `messaging.rs` is not in the snapshot). -/
structure RequestMessage where
  requests : List Request
  proofHeight : StateMachineHeight
  proofBytes : Bytes

/-- `ResponseMessage` of the refined crate (spec §6). -/
structure ResponseMessage where
  responses : List (Request × Bytes)
  proofHeight : StateMachineHeight
  proofBytes : Bytes

/-- `TimeoutMessage { requests, timeout_proof }` of the refined crate
(spec §6). -/
structure TimeoutMessage where
  requests : List Request
  timeoutProofHeight : StateMachineHeight
  timeoutProofBytes : Bytes

/-- `CreateConsensusClient` admin message (spec §6). -/
structure CreateConsensusClient where
  consensus_client_id : Nat
  consensus_state_id : Nat
  consensus_state : Bytes
  state_machine_commitments : List (StateMachineId × CommitmentHeight)

/-- The `Message` taxonomy of the refined crate (spec §6 plus the admin
variant the dispatcher rejects). -/
inductive Message where
  | Consensus (m : ConsensusMessage)
  | FraudProof (m : FraudProofMessage)
  | Request (m : RequestMessage)
  | Response (m : ResponseMessage)
  | Timeout (m : TimeoutMessage)
  | CreateConsensusClient (m : CreateConsensusClient)

/-- Modelled from the spec: `handle_incoming_message` of the refined crate's
`handlers/mod.rs` is not in the snapshot (only its testsuite callers are; the
draft in src/src/handlers.rs predates the Timeout and FraudProof variants).
Per §2/§6/§7 it dispatches each variant to its handler and rejects the admin
message with `CannotHandleMessage`.  The consensus and fraud-proof arms call
the in-snapshot `update_client` / `freeze_client`; the three proof pipelines
of the refined crate are not in the snapshot and are taken as parameters. -/
def handle_incoming_message
    (reqHandler : RequestMessage → PRes Error (MessageResult × Host))
    (respHandler : ResponseMessage → PRes Error (MessageResult × Host))
    (timeoutHandler : TimeoutMessage → PRes Error (MessageResult × Host))
    (host : Host) (message : Message) : PRes Error (MessageResult × Host) :=
  match message with
  | .Consensus consensus_message => update_client host consensus_message
  | .FraudProof fraud_proof => freeze_client host fraud_proof
  | .Request req => reqHandler req
  | .Response resp => respHandler resp
  | .Timeout timeout => timeoutHandler timeout
  | .CreateConsensusClient _ => perr .CannotHandleMessage

end IsmpA

/-- A consensus client used by the concrete scenarios: verification always
succeeds and yields one intermediate state, for chain `1` at height `5`. -/
def ccW : IsmpA.ConsensusClient where
  verifyConsensus := fun _ _ _ => .ok ([], [(1, ⟨5, ⟨7, none, 0⟩⟩)])
  verifyFraudProof := fun _ _ _ => .ok ()

/-- A concrete era-A host: consensus state id `7` owned by client id `3`,
last update at `4`, challenge period `6`, clock at `10`, latest height `2`
tracked for chain `1`. -/
def hostA0 : IsmpA.Host where
  consensusStateClient := fun i => if i = 7 then some 3 else none
  consensusClients := fun i => if i = 3 then some ccW else none
  consensusStates := fun i => if i = 7 then some [9] else none
  consensusUpdateTime := fun i => if i = 7 then some 4 else none
  frozenClients := fun _ => false
  frozenMachines := fun _ => false
  latestHeight := fun id => if id = ⟨1, 7⟩ then some 2 else none
  commitments := fun _ => none
  challengePeriod := fun _ => 6
  unbondingPeriod := fun _ => 1000
  now := 10

/-- `hostA0` with the last update at time `0`, so the challenge period has
elapsed strictly. -/
def hostA1 : IsmpA.Host :=
  { hostA0 with consensusUpdateTime := fun i => if i = 7 then some 0 else none }

/-- `hostA0` with the clock rolled back before the stored update time. -/
def hostA2 : IsmpA.Host := { hostA0 with now := 3 }

/-- The consensus message for state id `7` used by the concrete scenarios. -/
def msgW : IsmpA.ConsensusMessage := ⟨7, []⟩

/-- `hostA1` with no latest commitment height recorded for any id. -/
def hostA3 : IsmpA.Host := { hostA1 with latestHeight := fun _ => none }

/-- The result of the successful consensus update on `hostA1`: the tracked
latest height for chain `1` advances from `2` to `5`. -/
def resW4 : IsmpA.MessageResult :=
  .ConsensusMessage ⟨3, 7, [(⟨⟨1, 7⟩, 2⟩, ⟨⟨1, 7⟩, 5⟩)]⟩

/-- The host state after the successful consensus update on `hostA1`. -/
def hostFW4 : IsmpA.Host :=
  IsmpA.storeLatestCommitmentHeight
    (IsmpA.storeStateMachineCommitment
      (IsmpA.storeConsensusUpdateTime (IsmpA.storeConsensusState hostA1 7 []) 7 10)
      ⟨⟨1, 7⟩, 5⟩ ⟨7, none, 0⟩)
    ⟨⟨1, 7⟩, 5⟩

/-- A concrete era-B consensus client: never frozen, membership always
verifies, and the state proof reports a present (`some`) value; unbonding
period `10`. -/
def clientB0 : IsmpB.ConsensusClient where
  consensusId := 3
  unbondingPeriodC := 10
  isFrozenC := fun _ => .ok false
  verifyMembership := fun _ _ _ => .ok ()
  verifyStateProof := fun _ _ _ => .ok [some [1]]

/-- A concrete era-B router whose dispatches always succeed. -/
def routerB0 : IsmpB.Router where
  dispatch := fun _ => .ok ()
  dispatchTimeout := fun _ => .ok ()
  writeResponse := fun _ => .ok ()

/-- A concrete outbound request: source `20`, dest `21`, nonce `0`, timing
out at `100`. -/
def reqB0 : IsmpB.Request := ⟨20, 21, 0, 100⟩

/-- A concrete era-B host: consensus client `3` (delay period `5`, last
update at `0`), clock at `10000`, every height committed with timestamp
`99`, the outbound set holding exactly the hash `42` that the host assigns
to every request. -/
def hostB0 : IsmpB.Host where
  requests := [42]
  consensusStates := fun _ => some []
  stateCommitments := fun _ => some ⟨99, []⟩
  consensusUpdateTime := fun i => if i = 3 then some 0 else none
  frozenStateMachines := fun _ => none
  latestStateHeight := fun _ => none
  consensusClients := fun i => if i = 3 then some clientB0 else none
  delayPeriod := fun _ => 5
  hashReq := fun _ => 42
  routerB := routerB0
  now := 10000

/-- `hostB0` with the clock before the stored update time (for the
saturating-subtraction check of `is_expired`). -/
def hostB1 : IsmpB.Host :=
  { hostB0 with now := 0, consensusUpdateTime := fun i => if i = 3 then some 50 else none }

/-- `hostB0` with the state machine `(1, 3)` frozen at height `100`. -/
def hostB5 : IsmpB.Host :=
  { hostB0 with frozenStateMachines :=
      fun i => if i = ⟨1, 3⟩ then some ⟨⟨1, 3⟩, 100⟩ else none }

/-- A request message carrying `reqB0` with a proof at height `h` for the
state machine `(1, 3)`. -/
def msgBAt (h : Nat) : IsmpB.RequestMessage := ⟨reqB0, ⟨⟨⟨1, 3⟩, h⟩, []⟩⟩

/-- A timeout message carrying `reqB0` with a proof at height `10` for the
state machine `(1, 3)`. -/
def tmsgB : IsmpB.TimeoutMessage := ⟨reqB0, ⟨⟨⟨1, 3⟩, 10⟩, []⟩⟩

/-- `hostB0` with the clock at `200`, past the committed timestamp `99`. -/
def hostB3 : IsmpB.Host := { hostB0 with now := 200 }

/-- The conditions the era-B preamble `validate_state_machine` establishes
when it succeeds: resolved client, client not frozen, state machine not
frozen at the proof height, challenge delay strictly elapsed. -/
def preambleHeld (host : IsmpB.Host) (proof : IsmpB.Proof) : Prop :=
  ∃ cc, host.consensusClients proof.height.id.consensus_client = some cc ∧
    cc.isFrozenC proof.height.id.consensus_client = .ok false ∧
    IsmpB.Host.is_frozen host proof.height = .ok false ∧
    IsmpB.verify_delay_passed host proof.height = pok true

/-- A trivial request pipeline used to exercise the dispatcher. -/
def reqHW : IsmpA.RequestMessage → PRes Error (IsmpA.MessageResult × IsmpA.Host) :=
  fun _ => perr (.ImplementationSpecific "request pipeline")

/-- A trivial response pipeline used to exercise the dispatcher. -/
def respHW : IsmpA.ResponseMessage → PRes Error (IsmpA.MessageResult × IsmpA.Host) :=
  fun _ => perr (.ImplementationSpecific "response pipeline")

/-- A trivial timeout pipeline used to exercise the dispatcher. -/
def toHW : IsmpA.TimeoutMessage → PRes Error (IsmpA.MessageResult × IsmpA.Host) :=
  fun _ => perr (.ImplementationSpecific "timeout pipeline")

/-- A concrete admin (create-consensus-client) message. -/
def adminW : IsmpA.CreateConsensusClient := ⟨3, 7, [], []⟩

/-- A concrete era-A timeout message. -/
def tmW : IsmpA.TimeoutMessage := ⟨[], ⟨⟨1, 7⟩, 0⟩, []⟩


/-! Preservation facts about the era-A store operations, used when reasoning
about the intermediate-state loop. -/

/-- Storing a consensus state leaves the latest-height store untouched. -/
theorem storeConsensusState_latestHeight (h : IsmpA.Host) (id : Nat) (b : Bytes) :
    (IsmpA.storeConsensusState h id b).latestHeight = h.latestHeight := rfl

/-- Storing an update time leaves the latest-height store untouched. -/
theorem storeConsensusUpdateTime_latestHeight (h : IsmpA.Host) (id t : Nat) :
    (IsmpA.storeConsensusUpdateTime h id t).latestHeight = h.latestHeight := rfl

/-- Storing a state-machine commitment leaves the latest-height store
untouched. -/
theorem storeStateMachineCommitment_latestHeight (h : IsmpA.Host)
    (sh : IsmpA.StateMachineHeight) (c : IsmpA.StateCommitment) :
    (IsmpA.storeStateMachineCommitment h sh c).latestHeight = h.latestHeight := rfl

/-- Storing a consensus state or update time leaves the frozen flags and the
latest heights untouched. -/
theorem storeConsensusState_frozenMachines (h : IsmpA.Host) (id : Nat) (b : Bytes) :
    (IsmpA.storeConsensusState h id b).frozenMachines = h.frozenMachines := rfl

/-- Storing an update time leaves the frozen flags untouched. -/
theorem storeConsensusUpdateTime_frozenMachines (h : IsmpA.Host) (id t : Nat) :
    (IsmpA.storeConsensusUpdateTime h id t).frozenMachines = h.frozenMachines := rfl

/-- The only error the intermediate-state loop can raise is the missing
latest-height lookup error. -/
theorem processIntermediates_error (sid : Nat) :
    ∀ (l : List (Nat × IsmpA.CommitmentHeight)) (host : IsmpA.Host) (e : Error),
      IsmpA.processIntermediates host sid l = .error e →
      e = .ImplementationSpecific "latest height not found" := by
  intro l
  induction l with
  | nil => intro host e h; simp [IsmpA.processIntermediates] at h
  | cons hd tl ih =>
    intro host e h
    rw [IsmpA.processIntermediates] at h
    dsimp only at h
    split at h
    · exact ih host e h
    · split at h
      · simp only [Except.error.injEq] at h
        exact h.symm
      · split at h
        · exact ih host e h
        · split at h
          · exact ih host e h
          · split at h
            · rename_i heq
              simp only [Except.error.injEq] at h
              subst h
              exact ih _ _ heq
            · simp at h

/-- C9: for every `Post` request, `hash_request` hashes exactly the
concatenation `utf8(source_chain) ‖ utf8(dest_chain) ‖ be64(nonce) ‖
be64(timeout_timestamp) ‖ from ‖ to ‖ data`, in that order (the spec's §4.6
formula `hashPostSpec`). -/
theorem hash_request_post_is_canonical_concatenation
    (keccak : Bytes → H256) (smText : Nat → Bytes) (encodeKeys : List Bytes → Bytes)
    (post : IsmpA.Post) :
    IsmpA.hash_request keccak smText encodeKeys (.Post post) =
      IsmpA.hashPostSpec keccak smText post := by
  simp [IsmpA.hash_request, IsmpA.hashPostSpec]


/-- C1: reaching the challenge gate (all preceding lookups succeed, the
client is not frozen, no clock underflow, and the opaque verifier never
reports this error kind itself), `update_client` fails with
`ChallengePeriodNotElapsed` exactly when `now − update_time ≤ delay`: the
boundary `now − update_time = delay` is rejected and only a strictly greater
elapsed time lets the update proceed past the gate. -/
theorem update_client_challenge_gate_iff
    (host : IsmpA.Host) (msg : IsmpA.ConsensusMessage)
    (cid : Nat) (cc : IsmpA.ConsensusClient) (trusted : Bytes) (ut : Nat)
    (h1 : host.consensusStateClient msg.consensus_state_id = some cid)
    (h2 : host.consensusClients cid = some cc)
    (h3 : host.consensusStates msg.consensus_state_id = some trusted)
    (h4 : host.consensusUpdateTime msg.consensus_state_id = some ut)
    (h5 : host.frozenClients msg.consensus_state_id = false)
    (h6 : ut ≤ host.now)
    (h7 : ∀ a b c, cc.verifyConsensus msg.consensus_state_id trusted msg.consensus_proof ≠
        .error (.ChallengePeriodNotElapsed a b c)) :
    IsmpA.update_client host msg =
        perr (.ChallengePeriodNotElapsed cid host.now ut) ↔
      host.now - ut ≤ host.challengePeriod cid := by
  have hds : durSub host.now ut = some (host.now - ut) := by simp [durSub, h6]
  constructor
  · intro h
    by_contra hgt
    rw [Nat.not_le] at hgt
    rw [IsmpA.update_client, h1] at h
    dsimp only at h
    rw [h2, h3, h4] at h
    dsimp only at h
    rw [h5] at h
    rw [if_neg Bool.false_ne_true] at h
    rw [hds] at h
    dsimp only at h
    rw [if_neg (Nat.not_le.mpr hgt)] at h
    split at h
    · rename_i e heq
      rw [IsmpA.Host.is_expired, h4] at heq
      dsimp only at heq
      simp only [perr, Option.some.injEq, Except.error.injEq] at h
      subst h
      split at heq
      · exact Error.noConfusion (Except.error.inj heq)
      · exact Except.noConfusion heq
    · split at h
      · rename_i e heq
        simp only [perr, Option.some.injEq, Except.error.injEq] at h
        subst h
        exact h7 _ _ _ heq
      · split at h
        · rename_i e heq
          simp only [perr, Option.some.injEq, Except.error.injEq] at h
          subst h
          exact Error.noConfusion (processIntermediates_error _ _ _ _ heq)
        · simp only [pok, perr, Option.some.injEq] at h
          exact Except.noConfusion h
  · intro hle
    rw [IsmpA.update_client, h1]
    dsimp only
    rw [h2, h3, h4]
    dsimp only
    rw [h5]
    rw [if_neg Bool.false_ne_true]
    rw [hds]
    dsimp only
    rw [if_pos hle]

/-- Witness for C1: on `hostA0` the elapsed time `10 − 4` equals the
challenge period `6` exactly, and the update is rejected with
`ChallengePeriodNotElapsed` — the boundary case fails. -/
theorem update_client_challenge_gate_iff_witness :
    hostA0.now - 4 ≤ hostA0.challengePeriod 3 ∧
      IsmpA.update_client hostA0 msgW =
        perr (.ChallengePeriodNotElapsed 3 hostA0.now 4) :=
  ⟨by decide,
    (update_client_challenge_gate_iff hostA0 msgW 3 ccW [9] 4 rfl rfl rfl rfl rfl
      (by decide) (fun _ _ _ h => Except.noConfusion h)).mpr (by decide)⟩

/-- C10: with the gate reachable (lookups succeed, client not frozen), the
consensus handler's `now − update_time` is an unguarded `Duration`
subtraction: if `update_time > now` the handler panics, while under the
precondition `update_time ≤ now` it always returns a value.  By contrast the
old trait's expiry check `is_expired` uses `saturating_sub` and is total: a
stored update time in the future saturates to an elapsed time of zero and
reports "not expired" instead of panicking. -/
theorem update_client_unguarded_sub_vs_is_expired
    (host : IsmpA.Host) (msg : IsmpA.ConsensusMessage)
    (cid : Nat) (cc : IsmpA.ConsensusClient) (trusted : Bytes) (ut : Nat)
    (h1 : host.consensusStateClient msg.consensus_state_id = some cid)
    (h2 : host.consensusClients cid = some cc)
    (h3 : host.consensusStates msg.consensus_state_id = some trusted)
    (h4 : host.consensusUpdateTime msg.consensus_state_id = some ut)
    (h5 : host.frozenClients msg.consensus_state_id = false) :
    (host.now < ut → IsmpA.update_client host msg = none) ∧
    (ut ≤ host.now → (IsmpA.update_client host msg).isSome) ∧
    (∀ (c : IsmpB.ConsensusClient) (hb : IsmpB.Host) (last : Nat),
      hb.consensusUpdateTime c.consensusId = some last → hb.now ≤ last →
      c.is_expired hb = .ok false) := by
  refine ⟨?_, ?_, ?_⟩
  · intro hlt
    have hds : durSub host.now ut = none := by
      simp [durSub, Nat.not_le.mpr hlt]
    rw [IsmpA.update_client, h1]
    dsimp only
    rw [h2, h3, h4]
    dsimp only
    rw [h5, if_neg Bool.false_ne_true, hds]
  · intro hle
    have hds : durSub host.now ut = some (host.now - ut) := by simp [durSub, hle]
    rw [IsmpA.update_client, h1]
    dsimp only
    rw [h2, h3, h4]
    dsimp only
    rw [h5, if_neg Bool.false_ne_true, hds]
    dsimp only
    split
    · simp [perr]
    · split
      · simp [perr]
      · split
        · simp [perr]
        · split
          · simp [perr]
          · simp [pok]
  · intro c hb last hlk hge
    rw [IsmpB.ConsensusClient.is_expired, hlk]
    dsimp only
    rw [Nat.sub_eq_zero_of_le hge]
    simp

/-- Witness for C10: on `hostA2` the clock (`3`) is before the stored update
time (`4`) and `update_client` panics; on `hostA0` the precondition holds and
the handler returns a value; on `hostB1` the saturating `is_expired` returns
"not expired" for an update time in the future. -/
theorem update_client_unguarded_sub_vs_is_expired_witness :
    IsmpA.update_client hostA2 msgW = none ∧
    (IsmpA.update_client hostA0 msgW).isSome ∧
    clientB0.is_expired hostB1 = .ok false :=
  ⟨(update_client_unguarded_sub_vs_is_expired hostA2 msgW 3 ccW [9] 4
      rfl rfl rfl rfl rfl).1 (by decide),
   (update_client_unguarded_sub_vs_is_expired hostA0 msgW 3 ccW [9] 4
      rfl rfl rfl rfl rfl).2.1 (by decide),
   (update_client_unguarded_sub_vs_is_expired hostA0 msgW 3 ccW [9] 4
      rfl rfl rfl rfl rfl).2.2 clientB0 hostB1 50 rfl (by decide)⟩

/-- Loop invariant of the intermediate-state loop: a successful pass never
decreases a tracked latest height. -/
theorem processIntermediates_mono (sid : Nat) :
    ∀ (l : List (Nat × IsmpA.CommitmentHeight)) (host hostF : IsmpA.Host)
      (updates : List (IsmpA.StateMachineHeight × IsmpA.StateMachineHeight)),
      IsmpA.processIntermediates host sid l = .ok (hostF, updates) →
      ∀ id v, host.latestHeight id = some v →
        ∃ v', hostF.latestHeight id = some v' ∧ v ≤ v' := by
  intro l
  induction l with
  | nil =>
    intro host hostF updates h id v hv
    rw [IsmpA.processIntermediates] at h
    simp only [Except.ok.injEq, Prod.mk.injEq] at h
    exact ⟨v, h.1 ▸ hv, Nat.le_refl v⟩
  | cons hd tl ih =>
    obtain ⟨s, ch⟩ := hd
    intro host hostF updates h id v hv
    rw [IsmpA.processIntermediates] at h
    dsimp only at h
    split at h
    · exact ih host hostF updates h id v hv
    · split at h
      · exact Except.noConfusion h
      · rename_i prev hprev
        split at h
        · exact ih host hostF updates h id v hv
        · split at h
          · exact ih host hostF updates h id v hv
          · rename_i hnlt _
            split at h
            · exact Except.noConfusion h
            · rename_i hostF' updates' heq
              simp only [Except.ok.injEq, Prod.mk.injEq] at h
              obtain ⟨hfe, -⟩ := h
              subst hfe
              by_cases hid : id = (⟨s, sid⟩ : IsmpA.StateMachineId)
              · subst hid
                have hv' :
                    (IsmpA.storeLatestCommitmentHeight
                      (IsmpA.storeStateMachineCommitment host ⟨⟨s, sid⟩, ch.height⟩
                        ch.commitment) ⟨⟨s, sid⟩, ch.height⟩).latestHeight ⟨s, sid⟩ =
                      some ch.height := by
                  simp [IsmpA.storeLatestCommitmentHeight, IsmpA.storeStateMachineCommitment]
                obtain ⟨v', hlk, hle⟩ := ih _ hostF' updates' heq ⟨s, sid⟩ ch.height hv'
                refine ⟨v', hlk, ?_⟩
                have hv2 : v = prev := by
                  rw [hv] at hprev
                  exact (Option.some.inj hprev)
                have : prev ≤ ch.height := Nat.le_of_not_lt hnlt
                omega
              · have hv' :
                    (IsmpA.storeLatestCommitmentHeight
                      (IsmpA.storeStateMachineCommitment host ⟨⟨s, sid⟩, ch.height⟩
                        ch.commitment) ⟨⟨s, sid⟩, ch.height⟩).latestHeight id = some v := by
                  simp only [IsmpA.storeLatestCommitmentHeight,
                    IsmpA.storeStateMachineCommitment]
                  simp only [if_neg hid]
                  exact hv
                exact ih _ hostF' updates' heq id v hv'

/-- C4: across a successful consensus update the tracked latest commitment
height of every state machine id is non-decreasing, and an intermediate
state whose height is below the tracked latest for its id is skipped (the
loop continues with the rest of the list, not failing the update).  Each
stored height becomes the new latest, which is what the loop invariant
tracks. -/
theorem consensus_update_latest_height_monotone
    (host : IsmpA.Host) (msg : IsmpA.ConsensusMessage)
    (res : IsmpA.MessageResult) (hostF : IsmpA.Host)
    (h : IsmpA.update_client host msg = pok (res, hostF)) :
    (∀ id v, host.latestHeight id = some v →
      ∃ v', hostF.latestHeight id = some v' ∧ v ≤ v') ∧
    (∀ (h0 : IsmpA.Host) (s : Nat) (ch : IsmpA.CommitmentHeight)
        (rest : List (Nat × IsmpA.CommitmentHeight)) (prev : Nat),
      h0.frozenMachines ⟨⟨s, msg.consensus_state_id⟩, ch.height⟩ = false →
      h0.latestHeight ⟨s, msg.consensus_state_id⟩ = some prev →
      ch.height < prev →
      IsmpA.processIntermediates h0 msg.consensus_state_id ((s, ch) :: rest) =
        IsmpA.processIntermediates h0 msg.consensus_state_id rest) := by
  constructor
  · intro id v hv
    rw [IsmpA.update_client] at h
    dsimp only at h
    repeat' split at h
    all_goals simp only [perr, pok, Option.some.injEq, reduceCtorEq] at h
    rename_i hostF' state_updates heq
    simp only [Except.ok.injEq, Prod.mk.injEq] at h
    obtain ⟨-, hfe⟩ := h
    subst hfe
    exact processIntermediates_mono _ _ _ _ _ heq id v hv
  · intro h0 s ch rest prev hfr hlk hlt
    rw [IsmpA.processIntermediates]
    dsimp only
    rw [hfr, if_neg Bool.false_ne_true, hlk]
    dsimp only
    rw [if_pos hlt]

/-- Witness for C4: the consensus update on `hostA1` succeeds and the latest
height tracked for chain `1` moves from `2` up to `5`; an intermediate at
height `1` (below the tracked `2`) is skipped without failing the update. -/
theorem consensus_update_latest_height_monotone_witness :
    (∃ v', hostFW4.latestHeight ⟨1, 7⟩ = some v' ∧ 2 ≤ v') ∧
    IsmpA.processIntermediates hostA1 7 [(1, ⟨1, ⟨0, none, 0⟩⟩), (1, ⟨5, ⟨7, none, 0⟩⟩)] =
      IsmpA.processIntermediates hostA1 7 [(1, ⟨5, ⟨7, none, 0⟩⟩)] :=
  ⟨(consensus_update_latest_height_monotone hostA1 msgW resW4 hostFW4 rfl).1
      ⟨1, 7⟩ 2 rfl,
   (consensus_update_latest_height_monotone hostA1 msgW resW4 hostFW4 rfl).2
      hostA1 1 ⟨1, ⟨0, none, 0⟩⟩ [(1, ⟨5, ⟨7, none, 0⟩⟩)] 2 rfl rfl (by decide)⟩

/-- When the first unfrozen intermediate has no tracked latest height, the
loop propagates the lookup error. -/
theorem processIntermediates_missing_latest (host : IsmpA.Host) (sid s : Nat)
    (ch : IsmpA.CommitmentHeight) (rest : List (Nat × IsmpA.CommitmentHeight))
    (hfr : host.frozenMachines ⟨⟨s, sid⟩, ch.height⟩ = false)
    (hlk : host.latestHeight ⟨s, sid⟩ = none) :
    IsmpA.processIntermediates host sid ((s, ch) :: rest) =
      .error (.ImplementationSpecific "latest height not found") := by
  rw [IsmpA.processIntermediates]
  dsimp only
  rw [hfr, if_neg Bool.false_ne_true, hlk]

/-- Counterexample to C7: `hostA3` has no latest commitment height recorded
for chain `1`, every other precondition of the consensus update holds, and
`update_client` fails with the propagated lookup error instead of defaulting
`prev` to `0` and succeeding. -/
theorem update_client_missing_latest_height_counterexample :
    hostA3.latestHeight ⟨1, 7⟩ = none ∧
      IsmpA.update_client hostA3 msgW =
        perr (.ImplementationSpecific "latest height not found") :=
  ⟨rfl, rfl⟩

/-- C7 (amended): when the host has no latest commitment height recorded for
a state machine id appearing in the intermediates (and that height is not
frozen), the handler's `?` on `latest_commitment_height` propagates the
lookup error and the whole consensus update fails; `prev` is not defaulted
to `0`. -/
theorem update_client_missing_latest_height_fails
    (host : IsmpA.Host) (msg : IsmpA.ConsensusMessage)
    (cid : Nat) (cc : IsmpA.ConsensusClient) (trusted : Bytes) (ut : Nat)
    (ns : Bytes) (s : Nat) (ch : IsmpA.CommitmentHeight)
    (rest : List (Nat × IsmpA.CommitmentHeight))
    (h1 : host.consensusStateClient msg.consensus_state_id = some cid)
    (h2 : host.consensusClients cid = some cc)
    (h3 : host.consensusStates msg.consensus_state_id = some trusted)
    (h4 : host.consensusUpdateTime msg.consensus_state_id = some ut)
    (h5 : host.frozenClients msg.consensus_state_id = false)
    (h6 : ut ≤ host.now)
    (h8 : host.challengePeriod cid < host.now - ut)
    (h9 : host.now - ut ≤ host.unbondingPeriod cid)
    (h10 : cc.verifyConsensus msg.consensus_state_id trusted msg.consensus_proof =
        .ok (ns, (s, ch) :: rest))
    (h11 : host.frozenMachines ⟨⟨s, msg.consensus_state_id⟩, ch.height⟩ = false)
    (h12 : host.latestHeight ⟨s, msg.consensus_state_id⟩ = none) :
    IsmpA.update_client host msg =
      perr (.ImplementationSpecific "latest height not found") := by
  have hds : durSub host.now ut = some (host.now - ut) := by simp [durSub, h6]
  have hexp : host.is_expired cid msg.consensus_state_id = .ok () := by
    rw [IsmpA.Host.is_expired, h4]
    dsimp only
    rw [if_neg (Nat.not_lt.mpr h9)]
  rw [IsmpA.update_client, h1]
  dsimp only
  rw [h2, h3, h4]
  dsimp only
  rw [h5, if_neg Bool.false_ne_true, hds]
  dsimp only
  rw [if_neg (Nat.not_le.mpr h8), hexp, h10]
  dsimp only
  rw [processIntermediates_missing_latest
    (IsmpA.storeConsensusUpdateTime (IsmpA.storeConsensusState host msg.consensus_state_id ns)
      msg.consensus_state_id (IsmpA.storeConsensusState host msg.consensus_state_id ns).now)
    msg.consensus_state_id s ch rest h11 h12]

/-- Witness for C7's amended statement: applying it to `hostA3`. -/
theorem update_client_missing_latest_height_fails_witness :
    IsmpA.update_client hostA3 msgW =
      perr (.ImplementationSpecific "latest height not found") :=
  update_client_missing_latest_height_fails hostA3 msgW 3 ccW [9] 0 []
    1 ⟨5, ⟨7, none, 0⟩⟩ [] rfl rfl rfl rfl rfl (by decide) (by decide) (by decide)
    rfl rfl rfl

/-- A successful bind in the panic/Result monad means the first computation
succeeded. -/
theorem pbind_pok_inv {ε α β : Type} (x : PRes ε α) (f : α → PRes ε β) (b : β)
    (h : pbind x f = pok b) : ∃ a, x = pok a := by
  rcases x with _ | xa
  · simp [pbind, pok] at h
  · rcases xa with e | a
    · simp [pbind, pok] at h
    · exact ⟨a, rfl⟩

/-- A successful era-B preamble pins down all of its checks. -/
theorem validate_state_machine_ok (host : IsmpB.Host) (proof : IsmpB.Proof)
    (cc : IsmpB.ConsensusClient)
    (h : IsmpB.validate_state_machine host proof = pok cc) :
    preambleHeld host proof := by
  rw [IsmpB.validate_state_machine] at h
  try dsimp only at h
  rcases hc : host.consensusClients proof.height.id.consensus_client with _ | cc'
  · rw [hc] at h; simp [perr, pok] at h
  · rw [hc] at h
    try dsimp only at h
    rcases hf : cc'.isFrozenC proof.height.id.consensus_client with e | b
    · rw [hf] at h; simp [perr, pok] at h
    · rw [hf] at h
      try dsimp only at h
      rcases b with _ | _
      · rw [if_neg Bool.false_ne_true] at h
        rcases hm : IsmpB.Host.is_frozen host proof.height with e | mb
        · rw [hm] at h; simp [perr, pok] at h
        · rw [hm] at h
          try dsimp only at h
          rcases mb with _ | _
          · rw [if_neg Bool.false_ne_true] at h
            rcases hd : IsmpB.verify_delay_passed host proof.height with _ | ed
            · rw [hd] at h; simp [pbind, pok] at h
            · rcases ed with e | passed
              · rw [hd] at h; simp [pbind, pok] at h
              · rw [hd] at h
                simp only [pbind] at h
                rcases passed with _ | _
                · rw [if_neg Bool.false_ne_true] at h
                  split at h <;> simp [perr, pok] at h
                · rw [if_pos rfl] at h
                  simp only [pok, Option.some.injEq, Except.ok.injEq] at h
                  subst h
                  exact ⟨_, hc, hf, hm, hd⟩
          · rw [if_pos rfl] at h
            simp [perr, pok] at h
      · rw [if_pos rfl] at h
        simp [perr, pok] at h

/-- C2 (amended): whenever one of the three era-B message pipelines returns
success, the shared preamble held on the proof height: the consensus client
was resolved and not frozen, the state machine was not frozen at the proof
height, and the challenge delay had strictly elapsed
(`now − update_time > delay`).  The preamble performs no unbonding-period
check. -/
theorem handlers_success_implies_preamble :
    (∀ (host : IsmpB.Host) (msg : IsmpB.RequestMessage)
        (r : IsmpB.MessageResult × IsmpB.Host),
      IsmpB.handle_request_message host msg = pok r → preambleHeld host msg.proof) ∧
    (∀ (host : IsmpB.Host) (msg : IsmpB.TimeoutMessage)
        (r : IsmpB.MessageResult × IsmpB.Host),
      IsmpB.timeout_handle host msg = pok r → preambleHeld host msg.timeout_proof) ∧
    (∀ (host : IsmpB.Host) (msg : IsmpB.ResponseMessage)
        (r : IsmpB.MessageResult × IsmpB.Host),
      IsmpB.handle_response_message host msg = pok r → preambleHeld host msg.proof) := by
  refine ⟨?_, ?_, ?_⟩
  · intro host msg r h
    rw [IsmpB.handle_request_message] at h
    obtain ⟨cc, hv⟩ := pbind_pok_inv _ _ _ h
    exact validate_state_machine_ok host msg.proof cc hv
  · intro host msg r h
    rw [IsmpB.timeout_handle] at h
    obtain ⟨cc, hv⟩ := pbind_pok_inv _ _ _ h
    exact validate_state_machine_ok host msg.timeout_proof cc hv
  · intro host msg r h
    rw [IsmpB.handle_response_message] at h
    obtain ⟨cc, hv⟩ := pbind_pok_inv _ _ _ h
    exact validate_state_machine_ok host msg.proof cc hv

/-- Witness for C2's amended statement: the request pipeline succeeds on
`hostB0`, so the preamble held there. -/
theorem handlers_success_implies_preamble_witness :
    preambleHeld hostB0 (msgBAt 10).proof :=
  handlers_success_implies_preamble.1 hostB0 (msgBAt 10)
    (.Request ⟨21, 20, 0⟩, hostB0) rfl

/-- Counterexample to C2 as stated: on `hostB0` the request pipeline succeeds
although the consensus state has exceeded its unbonding period (the embedded
`is_expired` of src/src/consensus_client.rs reports expiry); the era-B
preamble never checks the unbonding period. -/
theorem handlers_success_despite_expiry_counterexample :
    IsmpB.handle_request_message hostB0 (msgBAt 10) =
        pok (.Request ⟨21, 20, 0⟩, hostB0) ∧
      clientB0.is_expired hostB0 = .ok true :=
  ⟨rfl, rfl⟩

/-- Counterexample to C5 as stated: with the frozen height for `(1, 3)` set
to `100`, a request message at proof height `99` — all other preconditions
holding — fails with `FrozenStateMachine` instead of passing the frozen
check: the mock host's `is_frozen` treats the stored height as an upper
bound (`frozen_height >= height`), not a lower bound. -/
theorem frozen_below_flag_rejected_counterexample :
    hostB5.frozenStateMachines ⟨1, 3⟩ = some ⟨⟨1, 3⟩, 100⟩ ∧
      IsmpB.handle_request_message hostB5 (msgBAt 99) =
        perr (.FrozenStateMachineB 1 3 99) :=
  ⟨rfl, rfl⟩

/-- C5 (amended): the per-height frozen flag set at `H` freezes exactly the
heights less than or equal to `H` for that id: with the flag at `100`,
`is_frozen` reports frozen exactly for `h ≤ 100`, a request message at proof
height `100` fails with `FrozenStateMachine`, and one at height `101` passes
the frozen check and succeeds (all other preconditions holding). -/
theorem frozen_flag_freezes_heights_below :
    (∀ h : Nat, IsmpB.Host.is_frozen hostB5 ⟨⟨1, 3⟩, h⟩ = .ok (decide (h ≤ 100))) ∧
    IsmpB.handle_request_message hostB5 (msgBAt 100) =
      perr (.FrozenStateMachineB 1 3 100) ∧
    IsmpB.handle_request_message hostB5 (msgBAt 101) =
      pok (.Request ⟨21, 20, 0⟩, hostB5) := by
  refine ⟨?_, rfl, rfl⟩
  intro h
  have hfz : hostB5.frozenStateMachines ⟨1, 3⟩ = some ⟨⟨1, 3⟩, 100⟩ := rfl
  rw [IsmpB.Host.is_frozen]
  dsimp only
  rw [hfz]
  simp [IsmpB.smhGe]

/-- C3 (code bug): the draft timeout handler accepts a timeout although the
destination's committed timestamp (`99`) has not surpassed the request's
`timeout_timestamp` (`100`) — it compares the host clock against the
committed timestamp and never reads the request's timeout — and although the
state proof reported the request as present (a `some` value), which it never
inspects. -/
theorem timeout_accepted_without_timeout_or_absence :
    IsmpB.timeout_handle hostB3 tmsgB = pok (.Timeout ⟨20, 21, 0⟩, hostB3) ∧
    hostB3.stateCommitments tmsgB.timeout_proof.height = some ⟨99, []⟩ ∧
    tmsgB.request.timeout_timestamp = 100 ∧
    (⟨99, []⟩ : IsmpB.StateCommitment).timestamp ≤ tmsgB.request.timeout_timestamp ∧
    clientB0.verifyStateProof (hostB3.get_request_commitment tmsgB.request) ⟨99, []⟩
        tmsgB.timeout_proof = .ok [some [1]] :=
  ⟨rfl, rfl, rfl, by decide, rfl⟩

/-- C6 (code bug): the draft timeout handler returns success with the host
state unchanged — it never calls `delete_request_commitment` — so the
outbound commitment of the timed-out request is still retrievable
afterwards. -/
theorem timeout_success_leaves_commitment :
    IsmpB.timeout_handle hostB3 tmsgB = pok (.Timeout ⟨20, 21, 0⟩, hostB3) ∧
    hostB3.request_commitment tmsgB.request = .ok 42 :=
  ⟨rfl, rfl⟩

/-- The spec-modelled `is_expired` host check only raises its two own error
kinds. -/
theorem host_is_expired_error (h : IsmpA.Host) (cid sid : Nat) (e : Error)
    (heq : h.is_expired cid sid = .error e) :
    e = .ImplementationSpecific "Consensus update time not found" ∨
      e = .UnbondingPeriodElapsed cid := by
  rw [IsmpA.Host.is_expired] at heq
  split at heq
  · exact .inl (Except.error.inj heq).symm
  · split at heq
    · exact .inr (Except.error.inj heq).symm
    · exact Except.noConfusion heq

/-- `update_client` never reports `CannotHandleMessage` unless an opaque
verifier of the host does. -/
theorem update_client_no_cannot_handle (host : IsmpA.Host) (msg : IsmpA.ConsensusMessage)
    (hcl : ∀ cid cc, host.consensusClients cid = some cc →
      ∀ s t p, cc.verifyConsensus s t p ≠ .error .CannotHandleMessage) :
    IsmpA.update_client host msg ≠ perr .CannotHandleMessage := by
  intro h
  rw [IsmpA.update_client] at h
  dsimp only at h
  repeat' split at h
  all_goals simp only [perr, pok, Option.some.injEq, Except.error.injEq, reduceCtorEq] at h
  all_goals subst h
  all_goals first
    | (rename_i heq
       exact absurd (processIntermediates_error _ _ _ _ heq) (by simp))
    | solve_by_elim [hcl]
    | (rename_i heq
       rcases host_is_expired_error _ _ _ _ heq with hx | hx <;> exact Error.noConfusion hx)

/-- `freeze_client` never reports `CannotHandleMessage` unless an opaque
fraud-proof verifier of the host does. -/
theorem freeze_client_no_cannot_handle (host : IsmpA.Host) (msg : IsmpA.FraudProofMessage)
    (hcl : ∀ cid cc, host.consensusClients cid = some cc →
      ∀ t p q, cc.verifyFraudProof t p q ≠ .error .CannotHandleMessage) :
    IsmpA.freeze_client host msg ≠ perr .CannotHandleMessage := by
  intro h
  rw [IsmpA.freeze_client] at h
  dsimp only at h
  repeat' split at h
  all_goals simp only [perr, pok, Option.some.injEq, Except.error.injEq, reduceCtorEq] at h
  all_goals subst h
  all_goals solve_by_elim [hcl]

/-- C8: the single entry point dispatches each protocol variant to its
handler — `Consensus` to `update_client`, `FraudProof` to `freeze_client`,
`Request`/`Response`/`Timeout` to their pipelines — and, provided neither
the pipelines nor the host's opaque verifiers report `CannotHandleMessage`
themselves, it returns `CannotHandleMessage` exactly for the admin
create-consensus-client message. -/
theorem handle_incoming_message_dispatch
    (reqHandler : IsmpA.RequestMessage → PRes Error (IsmpA.MessageResult × IsmpA.Host))
    (respHandler : IsmpA.ResponseMessage → PRes Error (IsmpA.MessageResult × IsmpA.Host))
    (timeoutHandler : IsmpA.TimeoutMessage → PRes Error (IsmpA.MessageResult × IsmpA.Host))
    (host : IsmpA.Host)
    (hcl : ∀ cid cc, host.consensusClients cid = some cc →
      (∀ s t p, cc.verifyConsensus s t p ≠ .error .CannotHandleMessage) ∧
      (∀ t p q, cc.verifyFraudProof t p q ≠ .error .CannotHandleMessage))
    (hreq : ∀ m, reqHandler m ≠ perr .CannotHandleMessage)
    (hresp : ∀ m, respHandler m ≠ perr .CannotHandleMessage)
    (hto : ∀ m, timeoutHandler m ≠ perr .CannotHandleMessage) :
    (∀ m, IsmpA.handle_incoming_message reqHandler respHandler timeoutHandler host
        (.Consensus m) = IsmpA.update_client host m) ∧
    (∀ m, IsmpA.handle_incoming_message reqHandler respHandler timeoutHandler host
        (.FraudProof m) = IsmpA.freeze_client host m) ∧
    (∀ m, IsmpA.handle_incoming_message reqHandler respHandler timeoutHandler host
        (.Request m) = reqHandler m) ∧
    (∀ m, IsmpA.handle_incoming_message reqHandler respHandler timeoutHandler host
        (.Response m) = respHandler m) ∧
    (∀ m, IsmpA.handle_incoming_message reqHandler respHandler timeoutHandler host
        (.Timeout m) = timeoutHandler m) ∧
    (∀ msg, IsmpA.handle_incoming_message reqHandler respHandler timeoutHandler host msg =
        perr .CannotHandleMessage ↔ ∃ c, msg = .CreateConsensusClient c) := by
  refine ⟨fun m => rfl, fun m => rfl, fun m => rfl, fun m => rfl, fun m => rfl, ?_⟩
  intro msg
  constructor
  · intro h
    cases msg with
    | Consensus m =>
      exact absurd h
        (update_client_no_cannot_handle host m (fun cid cc hl => (hcl cid cc hl).1))
    | FraudProof m =>
      exact absurd h
        (freeze_client_no_cannot_handle host m (fun cid cc hl => (hcl cid cc hl).2))
    | Request m => exact absurd h (hreq m)
    | Response m => exact absurd h (hresp m)
    | Timeout m => exact absurd h (hto m)
    | CreateConsensusClient m => exact ⟨m, rfl⟩
  · rintro ⟨c, rfl⟩
    rfl

/-- Witness for C8: with trivial pipelines and `hostA0`, the admin message is
the one rejected with `CannotHandleMessage`, while a `Timeout` message is
dispatched to the timeout pipeline and is not so rejected. -/
theorem handle_incoming_message_dispatch_witness :
    IsmpA.handle_incoming_message reqHW respHW toHW hostA0 (.CreateConsensusClient adminW) =
        perr .CannotHandleMessage ∧
      IsmpA.handle_incoming_message reqHW respHW toHW hostA0 (.Timeout tmW) = toHW tmW ∧
      IsmpA.handle_incoming_message reqHW respHW toHW hostA0 (.Timeout tmW) ≠
        perr .CannotHandleMessage := by
  have hcl : ∀ cid cc, hostA0.consensusClients cid = some cc →
      (∀ s t p, cc.verifyConsensus s t p ≠ .error .CannotHandleMessage) ∧
      (∀ t p q, cc.verifyFraudProof t p q ≠ .error .CannotHandleMessage) := by
    intro cid cc h
    by_cases hc : cid = 3
    · subst hc
      have hcc : ccW = cc := by simpa [hostA0] using h
      subst hcc
      exact ⟨fun s t p hx => by simp [ccW] at hx, fun t p q hx => by simp [ccW] at hx⟩
    · rw [show hostA0.consensusClients cid = none from by simp [hostA0, hc]] at h
      exact Option.noConfusion h
  obtain ⟨-, -, -, -, hT, hIff⟩ :=
    handle_incoming_message_dispatch reqHW respHW toHW hostA0 hcl
      (fun m => by simp [reqHW, perr]) (fun m => by simp [respHW, perr])
      (fun m => by simp [toHW, perr])
  refine ⟨(hIff (.CreateConsensusClient adminW)).mpr ⟨adminW, rfl⟩, hT tmW, ?_⟩
  intro h
  obtain ⟨c, hc⟩ := (hIff (.Timeout tmW)).mp h
  exact IsmpA.Message.noConfusion hc
